import Mathlib

/-!
# Verification of the llm-term-gui conversation/command mediation engine

Shallow embedding of `src/gui.rs` (struct `LlmTermApp` and its methods
`handle_user_prompt`, `execute_command`, `new_chat`, `load_session`).

External effects are made explicit parameters:
* the Language Model Gateway call (`Model::llm_get_response`) is an
  `Except String (Option String)` value supplied per turn — the result the
  gateway would return if it were called; the embedding records in
  `TurnResult.gatewayCalled` whether the engine consults it;
* running a shell command (`std::process::Command` spawn/wait) is an oracle
  `exec : String → String` giving the captured output of a command; for the
  executor's own internals (`execute_command`) the spawn/wait outcome is the
  explicit `SpawnOutcome` type;
* `Utc::now()` timestamps are a `now : Nat` parameter;
* `uuid::Uuid::new_v4()` is a `freshId : String` parameter;
* disk persistence (`save_chat_sessions`) and `ctx.request_repaint()` have no
  effect on the engine state and are dropped.

The Rust `HashMap<String, String>` cache is embedded as an association list
with first-match lookup and overwrite-on-insert, matching `get`/`insert`.
-/

/-- Character-list primitives mirroring the Rust `str` operations used. -/
def prefixMatches : List Char → List Char → Bool
  | [], _ => true
  | _ :: _, [] => false
  | p :: ps, t :: ts => p == t && prefixMatches ps ts

/-- Index (in characters) of the first occurrence of `pat` in `text`,
mirroring Rust `str::find` with a string pattern. -/
def findSub (pat : List Char) : List Char → Option Nat
  | [] => if prefixMatches pat [] then some 0 else none
  | t :: ts =>
    if prefixMatches pat (t :: ts) then some 0
    else (findSub pat ts).map (· + 1)

/-- Rust `str::contains` with a string pattern. -/
def containsSubstr (text pat : String) : Bool :=
  (findSub pat.data text.data).isSome

/-- Drop trailing whitespace, mirroring Rust `str::trim_end`. -/
def trimEndList (l : List Char) : List Char :=
  (l.reverse.dropWhile Char.isWhitespace).reverse

/-- Drop leading and trailing whitespace, mirroring Rust `str::trim`. -/
def trimList (l : List Char) : List Char :=
  trimEndList (l.dropWhile Char.isWhitespace)

/-- Rust `str::trim` on a `String`. -/
def trimStr (s : String) : String :=
  String.mk (trimList s.data)

/-- Rust `str::to_lowercase` (the tokens compared against are ASCII, where
the two lowercasings agree). -/
def lowerStr (s : String) : String :=
  String.mk (s.data.map Char.toLower)

/-- The backtick character terminating a `COMMAND: ` proposal. -/
def backtickChar : Char := Char.ofNat 96

/-- One message in the chat log (`ChatMessage` in `gui.rs`). -/
structure ChatMessage where
  content : String
  is_user : Bool
  timestamp : Nat
  is_command : Bool
  executed : Bool
deriving DecidableEq

/-- A full conversation (`ChatSession` in `gui.rs`). -/
structure ChatSession where
  id : String
  title : String
  messages : List ChatMessage
  created_at : Nat
deriving DecidableEq

/-- Rust `ChatSession::default()`: fresh id from `uuid`, title `"New Chat"`,
no messages. The uuid and clock are explicit parameters. -/
def defaultSession (freshId : String) (now : Nat) : ChatSession :=
  { id := freshId, title := "New Chat", messages := [], created_at := now }

/-- The engine-relevant fields of `LlmTermApp` (`config`, `current_input`
and `is_loading` are UI/plumbing and carry no engine state). -/
structure AppState where
  current_session : ChatSession
  chat_sessions : List ChatSession
  selected_session_id : Option String
  cache : List (String × String)
  pending_command : Option String
deriving DecidableEq

/-- Rust `HashMap::get` on the association-list cache. -/
def cacheGet (c : List (String × String)) (k : String) : Option String :=
  (c.find? (fun p => p.1 == k)).map Prod.snd

/-- Rust `HashMap::insert` (overwrites any previous binding of the key). -/
def cacheInsert (c : List (String × String)) (k v : String) :
    List (String × String) :=
  (k, v) :: c.filter (fun p => !(p.1 == k))

/-- Whether a key is present in the cache (`HashMap::contains_key` view). -/
def cacheMem (c : List (String × String)) (k : String) : Bool :=
  (cacheGet c k).isSome

/-- Outcome of spawning the shell and waiting for it, the effectful part of
`LlmTermApp::execute_command`: the spawn may fail, the wait may fail, or the
process completes with captured stdout and stderr (modelled as the decoded
strings `from_utf8_lossy` produces). Which interpreter `Shell::detect`
resolves and how the process behaves are environment facts abstracted here. -/
inductive SpawnOutcome where
  | spawnErr (e : String)
  | waitErr (e : String)
  | completed (stdout stderr : String)
deriving DecidableEq

/-- Method `LlmTermApp::execute_command` (gui.rs lines 132–166): format the captured
output. Builds `result` exactly as the Rust `push_str` sequence does. -/
def execute_command : SpawnOutcome → String
  | .spawnErr e => "Failed to start command: " ++ e
  | .waitErr e => "Command execution failed: " ++ e
  | .completed stdout stderr =>
    let result := if stdout.isEmpty then "" else stdout
    let result :=
      if stderr.isEmpty then result
      else (if result.isEmpty then result else result ++ "\n") ++ stderr
    if result.isEmpty then "Command executed successfully (no output)"
    else result

/-- The affirmation check of gui.rs lines 192–193:
`matches!(prompt.trim().to_lowercase().as_str(), "yes" | "y" | "sure" | "go ahead" | "execute" | "run it" | "do it")`. -/
def isAffirmation (prompt : String) : Bool :=
  let t := lowerStr (trimStr prompt)
  t == "yes" || t == "y" || t == "sure" || t == "go ahead" ||
    t == "execute" || t == "run it" || t == "do it"

/-- A `ChatMessage` as `handle_user_prompt` constructs them (both the user
echo and assistant replies set `is_command := false`, `executed := false`). -/
def mkMessage (content : String) (is_user : Bool) (now : Nat) : ChatMessage :=
  { content := content
    is_user := is_user
    timestamp := now
    is_command := false
    executed := false }

/-- Title derivation of gui.rs lines 182–187:
`prompt.chars().take(30).collect::<String>().trim_end().to_string()`. -/
def deriveTitle (prompt : String) : String :=
  String.mk (trimEndList (prompt.data.take 30))

/-- The execution report appended after running a pending command:
`format!("Executing: {}\n\nOutput:\n{}", pending_cmd, output)`. -/
def execReport (cmd output : String) : String :=
  "Executing: " ++ cmd ++ "\n\nOutput:\n" ++ output

/-- The cache key of gui.rs line 221: `format!("unified:{}", prompt)`. -/
def cacheKeyOf (prompt : String) : String :=
  "unified:" ++ prompt

/-- The `COMMAND: ` marker extraction of gui.rs lines 260–266: find the
first `"COMMAND: "`, take everything after it up to the next backtick,
trimmed; `none` when either the marker or the terminating backtick is
missing. -/
def parseCommandMarker (response : String) : Option String :=
  match findSub "COMMAND: ".data response.data with
  | none => none
  | some cmd_start =>
    let cmd_part := response.data.drop (cmd_start + 9)
    match cmd_part.findIdx? (fun c => c == backtickChar) with
    | none => none
    | some cmd_end => some (String.mk (trimList (cmd_part.take cmd_end)))

/-- Result of one turn: the updated state plus an explicit record of the
side effects (which commands were executed, whether the Gateway was
invoked). -/
structure TurnResult where
  state : AppState
  executed : List String
  gatewayCalled : Bool
deriving DecidableEq

/-- Obtaining the reply (gui.rs lines 221–242): consult the cache under
`"unified:" ++ prompt`; on a miss invoke the Gateway and cache its outcome —
a reply verbatim, the fixed fallback on an empty result, or
`"Error: " ++ e` on failure. Returns (reply, updated cache, whether the
Gateway was invoked). -/
def obtainReply (cache : List (String × String)) (prompt : String)
    (gw : Except String (Option String)) :
    String × List (String × String) × Bool :=
  let key := cacheKeyOf prompt
  match cacheGet cache key with
  | some cached => (cached, cache, false)
  | none =>
    match gw with
    | .ok (some reply) => (reply, cacheInsert cache key reply, true)
    | .ok none =>
      let reply := "I'm not sure how to respond to that."
      (reply, cacheInsert cache key reply, true)
    | .error e =>
      let reply := "Error: " ++ e
      (reply, cacheInsert cache key reply, true)

/-- The reply-obtaining and reply-parsing phase of `handle_user_prompt`
(gui.rs lines 212–282), reached when the turn was not intercepted by the
affirmation check. `sess2` is the current session with the user message
already appended and the title already derived. -/
def respondPhase (s : AppState) (sess2 : ChatSession) (prompt : String)
    (gw : Except String (Option String)) (exec : String → String)
    (now : Nat) : TurnResult :=
  match obtainReply s.cache prompt gw with
  | (response, cache', called) =>
    if containsSubstr response "EXECUTE_LAST_COMMAND" then
      match s.pending_command with
      | some pending_cmd =>
        let output := exec pending_cmd
        let sess3 := { sess2 with
          messages := sess2.messages ++
            [mkMessage (execReport pending_cmd output) false now] }
        { state := { s with
            current_session := sess3
            cache := cache'
            pending_command := none }
          executed := [pending_cmd]
          gatewayCalled := called }
      | none =>
        { state := { s with
            current_session := sess2
            cache := cache' }
          executed := []
          gatewayCalled := called }
    else
      let pending' :=
        match parseCommandMarker response with
        | some cmd => some cmd
        | none => s.pending_command
      let sess3 := { sess2 with
        messages := sess2.messages ++ [mkMessage response false now] }
      { state := { s with
          current_session := sess3
          cache := cache'
          pending_command := pending' }
        executed := []
        gatewayCalled := called }

/-- The first phase of `handle_user_prompt` (gui.rs lines 172–188): append
the user message verbatim and, when the title still reads `"New Chat"`,
derive the title from the prompt. -/
def sessAfterUser (s : AppState) (prompt : String) (now : Nat) : ChatSession :=
  let sess1 := { s.current_session with
    messages := s.current_session.messages ++ [mkMessage prompt true now] }
  if sess1.title == "New Chat" then { sess1 with title := deriveTitle prompt }
  else sess1

/-- Method `LlmTermApp::handle_user_prompt` (gui.rs lines 171–282): append the user
message, derive the title if still `"New Chat"`, then either execute a
pending command on an affirmative reply (no Gateway call) or obtain and
parse a reply. -/
def handle_user_prompt (s : AppState) (prompt : String)
    (gw : Except String (Option String)) (exec : String → String)
    (now : Nat) : TurnResult :=
  let sess2 := sessAfterUser s prompt now
  match s.pending_command with
  | some pending_cmd =>
    if isAffirmation prompt then
      let output := exec pending_cmd
      let sess3 := { sess2 with
        messages := sess2.messages ++
          [mkMessage (execReport pending_cmd output) false now] }
      { state := { s with
          current_session := sess3
          pending_command := none }
        executed := [pending_cmd]
        gatewayCalled := false }
    else respondPhase s sess2 prompt gw exec now
  | none => respondPhase s sess2 prompt gw exec now

/-- Method `LlmTermApp::new_chat` (gui.rs lines 108–117): archive the current
session iff it has messages; start a fresh default session. -/
def new_chat (s : AppState) (freshId : String) (now : Nat) : AppState :=
  let sessions :=
    if s.current_session.messages.isEmpty then s.chat_sessions
    else s.chat_sessions ++ [s.current_session]
  { s with
    chat_sessions := sessions
    current_session := defaultSession freshId now
    selected_session_id := none }

/-- Remove the first element satisfying `p`, returning it and the remaining
list in order — the `iter().position` + `Vec::remove` pair of
`load_session`. -/
def extractFirst {α : Type} (p : α → Bool) : List α → Option (α × List α)
  | [] => none
  | x :: xs =>
    if p x then some (x, xs)
    else (extractFirst p xs).map (fun r => (r.1, x :: r.2))

/-- Method `LlmTermApp::load_session` (gui.rs lines 119–127): find the session with
the given id, remove it from the list, swap it with the current session,
push the previous current session to the back of the list. -/
def load_session (s : AppState) (session_id : String) : AppState :=
  match extractFirst (fun t => t.id == session_id) s.chat_sessions with
  | none => s
  | some (found, rest) =>
    { s with
      current_session := found
      chat_sessions := rest ++ [s.current_session]
      selected_session_id := some found.id }

/-- All sessions the application holds: the active one plus the stored
list. Listing the sessions of the app enumerates this collection. -/
def listSessions (s : AppState) : List ChatSession :=
  s.current_session :: s.chat_sessions

/-- Input of one turn: the user text, the Gateway's would-be result, and the
turn's clock value. -/
structure TurnInput where
  prompt : String
  gw : Except String (Option String)
  now : Nat

/-- Run a sequence of turns, collecting per turn the prompt and whether the
Gateway was invoked. -/
def runTurns (s : AppState) (exec : String → String) :
    List TurnInput → AppState × List (String × Bool)
  | [] => (s, [])
  | t :: ts =>
    let r := handle_user_prompt s t.prompt t.gw exec t.now
    let rest := runTurns r.state exec ts
    (rest.1, (t.prompt, r.gatewayCalled) :: rest.2)

/-- Number of turns in an event list that invoked the Gateway with the given
prompt. -/
def countCalls (p : String) (evs : List (String × Bool)) : Nat :=
  (evs.filter (fun e => e.1 == p && e.2)).length

/-! ## General lemmas about the embedded operations

These are shared auxiliary results; the claim theorems come afterwards. -/

theorem sessAfterUser_messages (s : AppState) (prompt : String) (now : Nat) :
    (sessAfterUser s prompt now).messages =
      s.current_session.messages ++ [mkMessage prompt true now] := by
  simp only [sessAfterUser]
  split <;> rfl

theorem sessAfterUser_title (s : AppState) (prompt : String) (now : Nat) :
    (sessAfterUser s prompt now).title =
      (if s.current_session.title == "New Chat" then deriveTitle prompt
       else s.current_session.title) := by
  simp only [sessAfterUser]
  split <;> simp_all

theorem find?_filter_ne (c : List (String × String)) (k k' : String)
    (h : k' ≠ k) :
    List.find? (fun p => p.1 == k') (c.filter (fun p => !(p.1 == k))) =
    List.find? (fun p => p.1 == k') c := by
  induction c with
  | nil => rfl
  | cons a as ih =>
    by_cases ha : a.1 = k
    · have h1 : (a.1 == k) = true := by simp [ha]
      have h2 : (a.1 == k') = false := by
        simp only [beq_eq_false_iff_ne, ne_eq]
        intro hh
        exact h (hh ▸ ha)
      simp [List.filter_cons, h1, List.find?_cons, h2, ih]
    · have h1 : (a.1 == k) = false := by simp [ha]
      by_cases hk' : a.1 = k'
      · have h2 : (a.1 == k') = true := by simp [hk']
        simp [List.filter_cons, h1, List.find?_cons, h2]
      · have h2 : (a.1 == k') = false := by simp [hk']
        simp [List.filter_cons, h1, List.find?_cons, h2, ih]

theorem cacheGet_insert (c : List (String × String)) (k v : String)
    (k' : String) :
    cacheGet (cacheInsert c k v) k' = if k' = k then some v else cacheGet c k' := by
  by_cases h : k' = k
  · subst h
    simp [cacheGet, cacheInsert, List.find?]
  · have hbk : ((k, v).1 == k') = false := by
      simp only [beq_eq_false_iff_ne, ne_eq]
      exact fun hh => h hh.symm
    simp only [if_neg h, cacheGet, cacheInsert, List.find?_cons, hbk]
    rw [find?_filter_ne c k k' h]

theorem cacheMem_insert_of_mem (c : List (String × String)) (k v k' : String)
    (h : cacheMem c k' = true) : cacheMem (cacheInsert c k v) k' = true := by
  simp only [cacheMem, cacheGet_insert]
  by_cases hk : k' = k
  · simp [hk]
  · simpa [hk] using h

theorem cacheMem_insert_self (c : List (String × String)) (k v : String) :
    cacheMem (cacheInsert c k v) k = true := by
  simp [cacheMem, cacheGet_insert]

theorem obtainReply_hit (cache : List (String × String)) (prompt : String)
    (gw : Except String (Option String)) (v : String)
    (h : cacheGet cache (cacheKeyOf prompt) = some v) :
    obtainReply cache prompt gw = (v, cache, false) := by
  simp [obtainReply, h]

theorem obtainReply_miss (cache : List (String × String)) (prompt : String)
    (gw : Except String (Option String))
    (h : cacheGet cache (cacheKeyOf prompt) = none) :
    obtainReply cache prompt gw =
      ((obtainReply cache prompt gw).1,
       cacheInsert cache (cacheKeyOf prompt) (obtainReply cache prompt gw).1,
       true) := by
  cases gw with
  | ok o =>
    cases o with
    | some r => simp [obtainReply, h]
    | none => simp [obtainReply, h]
  | error e => simp [obtainReply, h]

theorem respondPhase_gatewayCalled (s : AppState) (sess2 : ChatSession)
    (prompt : String) (gw : Except String (Option String))
    (exec : String → String) (now : Nat) :
    (respondPhase s sess2 prompt gw exec now).gatewayCalled =
      (obtainReply s.cache prompt gw).2.2 := by
  simp only [respondPhase]
  rcases h : obtainReply s.cache prompt gw with ⟨resp, c', b⟩
  simp only []
  split
  · cases hp : s.pending_command <;> simp
  · simp

theorem respondPhase_cache (s : AppState) (sess2 : ChatSession)
    (prompt : String) (gw : Except String (Option String))
    (exec : String → String) (now : Nat) :
    (respondPhase s sess2 prompt gw exec now).state.cache =
      (obtainReply s.cache prompt gw).2.1 := by
  simp only [respondPhase]
  rcases h : obtainReply s.cache prompt gw with ⟨resp, c', b⟩
  simp only []
  split
  · cases hp : s.pending_command <;> simp
  · simp

/-- Whether the turn is intercepted by the affirmation check (gui.rs lines
191–210): a pending command exists and the user text is affirmative. -/
def intercepted (s : AppState) (prompt : String) : Bool :=
  s.pending_command.isSome && isAffirmation prompt

theorem handle_gatewayCalled_eq (s : AppState) (prompt : String)
    (gw : Except String (Option String)) (exec : String → String) (now : Nat) :
    (handle_user_prompt s prompt gw exec now).gatewayCalled =
      (!intercepted s prompt && (obtainReply s.cache prompt gw).2.2) := by
  cases hp : s.pending_command with
  | some c =>
    by_cases ha : isAffirmation prompt = true <;>
      simp [handle_user_prompt, hp, ha, respondPhase_gatewayCalled, intercepted]
  | none =>
    simp [handle_user_prompt, hp, respondPhase_gatewayCalled, intercepted]

theorem handle_cache_eq (s : AppState) (prompt : String)
    (gw : Except String (Option String)) (exec : String → String) (now : Nat) :
    (handle_user_prompt s prompt gw exec now).state.cache =
      (if intercepted s prompt then s.cache
       else (obtainReply s.cache prompt gw).2.1) := by
  cases hp : s.pending_command with
  | some c =>
    by_cases ha : isAffirmation prompt = true <;>
      simp [handle_user_prompt, hp, ha, respondPhase_cache, intercepted]
  | none =>
    simp [handle_user_prompt, hp, respondPhase_cache, intercepted]

theorem handle_called_imp_mem (s : AppState) (prompt : String)
    (gw : Except String (Option String)) (exec : String → String) (now : Nat)
    (h : (handle_user_prompt s prompt gw exec now).gatewayCalled = true) :
    cacheMem (handle_user_prompt s prompt gw exec now).state.cache
      (cacheKeyOf prompt) = true := by
  rw [handle_gatewayCalled_eq] at h
  rw [handle_cache_eq]
  rcases Bool.and_eq_true_iff.1 h with ⟨hni, hcall⟩
  have hni' : intercepted s prompt = false := by
    cases hi : intercepted s prompt
    · rfl
    · rw [hi] at hni; exact absurd hni (by simp)
  rw [hni', if_neg (by simp)]
  cases hc : cacheGet s.cache (cacheKeyOf prompt) with
  | some v =>
    rw [obtainReply_hit _ _ gw _ hc] at hcall
    exact absurd hcall (by simp)
  | none =>
    rw [obtainReply_miss _ _ gw hc]
    exact cacheMem_insert_self _ _ _

theorem handle_mem_imp_not_called (s : AppState) (prompt : String)
    (gw : Except String (Option String)) (exec : String → String) (now : Nat)
    (h : cacheMem s.cache (cacheKeyOf prompt) = true) :
    (handle_user_prompt s prompt gw exec now).gatewayCalled = false := by
  simp only [cacheMem, Option.isSome_iff_exists] at h
  obtain ⟨v, hv⟩ := h
  rw [handle_gatewayCalled_eq, obtainReply_hit _ _ gw _ hv]
  simp

theorem handle_cache_mono (s : AppState) (prompt : String)
    (gw : Except String (Option String)) (exec : String → String) (now : Nat)
    (k : String) (h : cacheMem s.cache k = true) :
    cacheMem (handle_user_prompt s prompt gw exec now).state.cache k = true := by
  rw [handle_cache_eq]
  by_cases hi : intercepted s prompt = true
  · rw [if_pos hi]; exact h
  · simp only [Bool.not_eq_true] at hi
    rw [hi, if_neg (by simp)]
    cases hc : cacheGet s.cache (cacheKeyOf prompt) with
    | some v => rw [obtainReply_hit _ _ gw _ hc]; exact h
    | none =>
      rw [obtainReply_miss _ _ gw hc]
      exact cacheMem_insert_of_mem _ _ _ _ h

theorem countCalls_cons (p : String) (e : String × Bool)
    (evs : List (String × Bool)) :
    countCalls p (e :: evs) =
      (if e.1 == p && e.2 then 1 else 0) + countCalls p evs := by
  simp only [countCalls, List.filter_cons]
  split
  · simp [Nat.add_comm]
  · simp

theorem countCalls_runTurns (exec : String → String) (ts : List TurnInput)
    (p : String) : ∀ s : AppState,
    (cacheMem s.cache (cacheKeyOf p) = true →
      countCalls p (runTurns s exec ts).2 = 0) ∧
    countCalls p (runTurns s exec ts).2 ≤ 1 := by
  induction ts with
  | nil => intro s; exact ⟨fun _ => rfl, by simp [runTurns, countCalls]⟩
  | cons t ts ih =>
    intro s
    simp only [runTurns, countCalls_cons]
    set r := handle_user_prompt s t.prompt t.gw exec t.now with hr
    constructor
    · intro hm
      have hmem' : cacheMem r.state.cache (cacheKeyOf p) = true :=
        handle_cache_mono s t.prompt t.gw exec t.now _ hm
      have htail : countCalls p (runTurns r.state exec ts).2 = 0 :=
        (ih r.state).1 hmem'
      rw [htail]
      by_cases hp : t.prompt = p
      · subst hp
        have : r.gatewayCalled = false :=
          handle_mem_imp_not_called s t.prompt t.gw exec t.now hm
        simp [this]
      · have : (t.prompt == p) = false := by simp [hp]
        simp [this]
    · by_cases hp : t.prompt = p
      · subst hp
        cases hc : r.gatewayCalled with
        | true =>
          have hmem' : cacheMem r.state.cache (cacheKeyOf t.prompt) = true :=
            handle_called_imp_mem s t.prompt t.gw exec t.now hc
          have htail : countCalls t.prompt (runTurns r.state exec ts).2 = 0 :=
            (ih r.state).1 hmem'
          simp [hc, htail]
        | false =>
          have htail := (ih r.state).2
          simpa [hc] using htail
      · have hne : (t.prompt == p) = false := by simp [hp]
        have htail := (ih r.state).2
        simpa [hne] using htail

theorem data_eq_nil_imp_empty (a : String) (h : a.data = []) : a = "" := by
  cases a
  simp_all

theorem append_ne_empty_left (a b : String) (h : ¬ a = "") : ¬ (a ++ b) = "" := by
  intro hab
  apply h
  apply data_eq_nil_imp_empty
  have hd : a.data ++ b.data = [] := by
    have := congrArg String.data hab
    rwa [String.data_append] at this
  exact (List.append_eq_nil.1 hd).1

theorem isEmpty_false_of_ne (s : String) (h : ¬ s = "") : s.isEmpty = false := by
  cases he : s.isEmpty
  · rfl
  · exact absurd ((String.isEmpty_iff s).1 he) h

theorem respondPhase_title (s : AppState) (sess2 : ChatSession)
    (prompt : String) (gw : Except String (Option String))
    (exec : String → String) (now : Nat) :
    (respondPhase s sess2 prompt gw exec now).state.current_session.title =
      sess2.title := by
  simp only [respondPhase]
  rcases h : obtainReply s.cache prompt gw with ⟨resp, c', b⟩
  simp only []
  split
  · cases hp : s.pending_command <;> simp
  · simp

theorem handle_title (s : AppState) (prompt : String)
    (gw : Except String (Option String)) (exec : String → String) (now : Nat) :
    (handle_user_prompt s prompt gw exec now).state.current_session.title =
      (sessAfterUser s prompt now).title := by
  cases hp : s.pending_command with
  | some c =>
    by_cases ha : isAffirmation prompt = true <;>
      simp [handle_user_prompt, hp, ha, respondPhase_title]
  | none => simp [handle_user_prompt, hp, respondPhase_title]

theorem handle_not_intercepted (s : AppState) (prompt : String)
    (gw : Except String (Option String)) (exec : String → String) (now : Nat)
    (hni : intercepted s prompt = false) :
    handle_user_prompt s prompt gw exec now =
      respondPhase s (sessAfterUser s prompt now) prompt gw exec now := by
  simp only [handle_user_prompt]
  cases hp : s.pending_command with
  | none => rfl
  | some c =>
    have ha : isAffirmation prompt = false := by
      simp only [intercepted, hp, Option.isSome_some, Bool.true_and] at hni
      exact hni
    simp [ha]

/-! ## Concrete fixtures used by witnesses and counterexamples -/

/-- A command-output oracle used in witnesses. -/
def exExec : String → String := fun _ => "file_a\nfile_b"

/-- A session that already has a user message and a derived title. -/
def exSession : ChatSession :=
  { id := "sid-current"
    title := "list files"
    messages := [mkMessage "list files" true 0]
    created_at := 0 }

/-- An application state awaiting confirmation of `ls -la`. -/
def exPendingState : AppState :=
  { current_session := exSession
    chat_sessions := []
    selected_session_id := none
    cache := []
    pending_command := some "ls -la" }

/-- An application state with no pending command. -/
def exIdleState : AppState :=
  { current_session := exSession
    chat_sessions := []
    selected_session_id := none
    cache := []
    pending_command := none }

/-- A freshly constructed application state (as `LlmTermApp::new` builds it
when no sessions file exists). -/
def freshApp : AppState :=
  { current_session := defaultSession "session-0" 0
    chat_sessions := []
    selected_session_id := none
    cache := []
    pending_command := none }

/-! ## The claims -/

/-- C1: when a pending command exists and the user text, after trimming and
lowercasing, is one of the affirmation tokens, the engine executes the
pending command, appends an Assistant message reporting the command and its
captured output, clears the pending command, and makes no Gateway call. -/
theorem affirmation_executes_pending_without_gateway (s : AppState)
    (prompt : String) (gw : Except String (Option String))
    (exec : String → String) (now : Nat) (c : String)
    (hp : s.pending_command = some c) (ha : isAffirmation prompt = true) :
    (handle_user_prompt s prompt gw exec now).gatewayCalled = false ∧
    (handle_user_prompt s prompt gw exec now).executed = [c] ∧
    (handle_user_prompt s prompt gw exec now).state.pending_command = none ∧
    (handle_user_prompt s prompt gw exec now).state.current_session.messages =
      s.current_session.messages ++
        [mkMessage prompt true now,
         mkMessage (execReport c (exec c)) false now] := by
  simp only [handle_user_prompt, hp, ha, if_true]
  refine ⟨trivial, trivial, trivial, ?_⟩
  simp [sessAfterUser_messages]

/-- Witness for C1 at a concrete state: pending `ls -la`, user text
`" YES "`. -/
theorem affirmation_executes_pending_without_gateway_witness :
    exPendingState.pending_command = some "ls -la" ∧
    isAffirmation " YES " = true ∧
    (handle_user_prompt exPendingState " YES " (.ok none) exExec 7).gatewayCalled
      = false ∧
    (handle_user_prompt exPendingState " YES " (.ok none) exExec 7).executed
      = ["ls -la"] := by
  have h := affirmation_executes_pending_without_gateway exPendingState " YES "
    (.ok none) exExec 7 "ls -la" rfl (by decide)
  exact ⟨rfl, by decide, h.1, h.2.1⟩

/-- C4: over any run of turns from any state, the Gateway is never invoked
twice for the same prompt text: outcomes are cached under
`"unified:" ++ prompt` and a present key short-circuits the call, so the
number of turns that both carry the prompt and invoke the Gateway is at
most one. -/
theorem gateway_called_at_most_once_per_prompt (s : AppState)
    (exec : String → String) (ts : List TurnInput) (p : String) :
    countCalls p (runTurns s exec ts).2 ≤ 1 :=
  (countCalls_runTurns exec ts p s).2

/-- C5 counterexample: with stdout `"a"` and stderr `"b"`, the executor
returns `"a\nb"` — a single newline separates the streams and the output
contains no blank line, contradicting the claimed blank-line separator. -/
theorem executor_blank_line_counterexample :
    execute_command (SpawnOutcome.completed "a" "b") = "a\nb" ∧
    execute_command (SpawnOutcome.completed "a" "b") ≠ "a" ++ "\n\n" ++ "b" ∧
    containsSubstr (execute_command (SpawnOutcome.completed "a" "b")) "\n\n"
      = false := by
  exact ⟨by decide, by decide, by decide⟩

/-- C5 amended: the executor returns stdout, then — when both streams are
non-empty — a single newline character, then stderr; the fixed sentinel when
both are empty; and spawn/wait failures as descriptive strings in the
output. -/
theorem executor_output_format (stdout stderr e : String) :
    execute_command (SpawnOutcome.spawnErr e) = "Failed to start command: " ++ e ∧
    execute_command (SpawnOutcome.waitErr e) = "Command execution failed: " ++ e ∧
    execute_command (SpawnOutcome.completed stdout stderr) =
      (if stdout = "" then
        (if stderr = "" then "Command executed successfully (no output)"
         else stderr)
       else if stderr = "" then stdout
       else stdout ++ "\n" ++ stderr) := by
  refine ⟨rfl, rfl, ?_⟩
  have hE : String.isEmpty "" = true := rfl
  by_cases ho : stdout = ""
  · subst ho
    by_cases he : stderr = ""
    · subst he; rfl
    · have h1 : stderr.isEmpty = false := isEmpty_false_of_ne _ he
      simp [execute_command, h1, he, hE, String.empty_append]
  · have h0 : stdout.isEmpty = false := isEmpty_false_of_ne _ ho
    by_cases he : stderr = ""
    · subst he
      simp [execute_command, h0, ho, hE]
    · have h1 : stderr.isEmpty = false := isEmpty_false_of_ne _ he
      have h2 : ¬ stdout ++ "\n" = "" := append_ne_empty_left _ _ ho
      have h3 : (stdout ++ "\n" ++ stderr).isEmpty = false :=
        isEmpty_false_of_ne _ (append_ne_empty_left _ _ h2)
      simp [execute_command, h0, h1, h2, h3, ho, he]

/-- C10: starting a new chat archives the current session exactly when its
message list is non-empty (an empty current session is discarded), and the
new current session is the fresh default session built from the newly drawn
uuid: empty messages, title `"New Chat"`. -/
theorem new_chat_archives_iff_messages (s : AppState) (freshId : String)
    (now : Nat) :
    (new_chat s freshId now).chat_sessions =
      (if s.current_session.messages.isEmpty then s.chat_sessions
       else s.chat_sessions ++ [s.current_session]) ∧
    (new_chat s freshId now).current_session = defaultSession freshId now ∧
    (new_chat s freshId now).current_session.messages = [] ∧
    (new_chat s freshId now).current_session.id = freshId := by
  exact ⟨rfl, rfl, rfl, rfl⟩

/-- C6: a reply containing `EXECUTE_LAST_COMMAND` while no pending command
exists executes nothing and appends no execution report — the session gains
only the user's message — and the state after the turn is Idle (no pending
command). -/
theorem execute_marker_without_pending_is_noop (s : AppState)
    (prompt reply : String) (exec : String → String) (now : Nat)
    (hpend : s.pending_command = none)
    (hmiss : cacheGet s.cache (cacheKeyOf prompt) = none)
    (hmark : containsSubstr reply "EXECUTE_LAST_COMMAND" = true) :
    (handle_user_prompt s prompt (.ok (some reply)) exec now).executed = [] ∧
    (handle_user_prompt s prompt (.ok (some reply)) exec now).state.pending_command
      = none ∧
    (handle_user_prompt s prompt (.ok (some reply)) exec now).state.current_session.messages
      = s.current_session.messages ++ [mkMessage prompt true now] := by
  have hni : intercepted s prompt = false := by simp [intercepted, hpend]
  rw [handle_not_intercepted _ _ _ _ _ hni]
  have hob : obtainReply s.cache prompt (.ok (some reply)) =
      (reply, cacheInsert s.cache (cacheKeyOf prompt) reply, true) := by
    simp [obtainReply, hmiss]
  simp [respondPhase, hob, hmark, hpend, sessAfterUser_messages]

/-- Witness for C6: idle state, reply consisting of the marker alone. -/
theorem execute_marker_without_pending_is_noop_witness :
    exIdleState.pending_command = none ∧
    cacheGet exIdleState.cache (cacheKeyOf "please rerun") = none ∧
    containsSubstr "EXECUTE_LAST_COMMAND" "EXECUTE_LAST_COMMAND" = true ∧
    (handle_user_prompt exIdleState "please rerun"
      (.ok (some "EXECUTE_LAST_COMMAND")) exExec 3).executed = [] := by
  have h := execute_marker_without_pending_is_noop exIdleState "please rerun"
    "EXECUTE_LAST_COMMAND" exExec 3 rfl rfl (by decide)
  exact ⟨rfl, rfl, by decide, h.1⟩

/-- C9: whenever the obtained reply contains `EXECUTE_LAST_COMMAND`, no new
pending command is set (the pending slot is empty afterwards) and the raw
reply text is never appended — the session gains the user message plus, only
when a pending command existed, its execution report; with no pending
command it gains the user message alone. This holds even when the reply
also contains a backtick-terminated `COMMAND: ` marker. -/
theorem execute_marker_suppresses_reply_and_pending (s : AppState)
    (prompt reply : String) (exec : String → String) (now : Nat)
    (hna : isAffirmation prompt = false)
    (hmiss : cacheGet s.cache (cacheKeyOf prompt) = none)
    (hmark : containsSubstr reply "EXECUTE_LAST_COMMAND" = true) :
    (handle_user_prompt s prompt (.ok (some reply)) exec now).state.pending_command
      = none ∧
    (handle_user_prompt s prompt (.ok (some reply)) exec now).state.current_session.messages
      = s.current_session.messages ++ [mkMessage prompt true now] ++
        (match s.pending_command with
         | some c => [mkMessage (execReport c (exec c)) false now]
         | none => []) := by
  have hni : intercepted s prompt = false := by simp [intercepted, hna]
  rw [handle_not_intercepted _ _ _ _ _ hni]
  have hob : obtainReply s.cache prompt (.ok (some reply)) =
      (reply, cacheInsert s.cache (cacheKeyOf prompt) reply, true) := by
    simp [obtainReply, hmiss]
  cases hp : s.pending_command with
  | some c => simp [respondPhase, hob, hmark, hp, sessAfterUser_messages]
  | none => simp [respondPhase, hob, hmark, hp, sessAfterUser_messages]

/-- Witness for C9: pending `ls -la`, reply carrying both markers; the
pending slot is cleared rather than replaced by `rm tmp`. -/
theorem execute_marker_suppresses_reply_and_pending_witness :
    isAffirmation "and now" = false ∧
    cacheGet exPendingState.cache (cacheKeyOf "and now") = none ∧
    containsSubstr "EXECUTE_LAST_COMMAND COMMAND: rm tmp` done"
      "EXECUTE_LAST_COMMAND" = true ∧
    (handle_user_prompt exPendingState "and now"
      (.ok (some "EXECUTE_LAST_COMMAND COMMAND: rm tmp` done"))
      exExec 4).state.pending_command = none := by
  have h := execute_marker_suppresses_reply_and_pending exPendingState "and now"
    "EXECUTE_LAST_COMMAND COMMAND: rm tmp` done" exExec 4
    (by decide) rfl (by decide)
  exact ⟨by decide, rfl, by decide, h.1⟩

/-- C2: a reply without `EXECUTE_LAST_COMMAND` but with `"COMMAND: "`
followed later by a backtick makes the text between the marker and the next
backtick, trimmed, the new pending command — replacing any previously
pending one — while the full reply text is still appended as the Assistant
message. -/
theorem command_marker_sets_pending (s : AppState) (prompt reply : String)
    (exec : String → String) (now : Nat) (i j : Nat)
    (hna : isAffirmation prompt = false)
    (hmiss : cacheGet s.cache (cacheKeyOf prompt) = none)
    (hnomark : containsSubstr reply "EXECUTE_LAST_COMMAND" = false)
    (hfind : findSub "COMMAND: ".data reply.data = some i)
    (htick : (reply.data.drop (i + 9)).findIdx? (fun c => c == backtickChar)
      = some j) :
    (handle_user_prompt s prompt (.ok (some reply)) exec now).state.pending_command
      = some (String.mk (trimList ((reply.data.drop (i + 9)).take j))) ∧
    (handle_user_prompt s prompt (.ok (some reply)) exec now).state.current_session.messages
      = s.current_session.messages ++
        [mkMessage prompt true now, mkMessage reply false now] := by
  have hni : intercepted s prompt = false := by simp [intercepted, hna]
  rw [handle_not_intercepted _ _ _ _ _ hni]
  have hob : obtainReply s.cache prompt (.ok (some reply)) =
      (reply, cacheInsert s.cache (cacheKeyOf prompt) reply, true) := by
    simp [obtainReply, hmiss]
  have hparse : parseCommandMarker reply =
      some (String.mk (trimList ((reply.data.drop (i + 9)).take j))) := by
    simp [parseCommandMarker, hfind, htick]
  simp [respondPhase, hob, hnomark, hparse, sessAfterUser_messages]

/-- Witness for C2, the spec's own scenario: the reply
`"Sure, here: \x60COMMAND: ls -la\x60 Want me to run it?"` replaces the old
pending command with exactly `ls -la`. -/
theorem command_marker_sets_pending_witness :
    isAffirmation "list files in this folder" = false ∧
    cacheGet exPendingState.cache (cacheKeyOf "list files in this folder") = none ∧
    containsSubstr "Sure, here: `COMMAND: ls -la` Want me to run it?"
      "EXECUTE_LAST_COMMAND" = false ∧
    findSub "COMMAND: ".data
      "Sure, here: `COMMAND: ls -la` Want me to run it?".data = some 13 ∧
    (("Sure, here: `COMMAND: ls -la` Want me to run it?".data.drop (13 + 9)).findIdx?
      (fun c => c == backtickChar)) = some 6 ∧
    (handle_user_prompt exPendingState "list files in this folder"
      (.ok (some "Sure, here: `COMMAND: ls -la` Want me to run it?"))
      exExec 9).state.pending_command = some "ls -la" := by
  have h := command_marker_sets_pending exPendingState "list files in this folder"
    "Sure, here: `COMMAND: ls -la` Want me to run it?" exExec 9 13 6
    (by decide) rfl (by decide) (by decide) (by decide)
  refine ⟨by decide, rfl, by decide, by decide, by decide, ?_⟩
  rw [h.1]
  decide

/-- C3: when the Gateway call fails, the engine appends
`"Error: " ++ error` as the Assistant message and stores that same text in
the cache under the turn's key, so a second identical prompt in the same run
makes no Gateway call and replays the cached error text as the reply. -/
theorem gateway_error_cached_and_replayed (s : AppState) (prompt e : String)
    (exec : String → String) (now1 now2 : Nat)
    (gw2 : Except String (Option String))
    (hna : isAffirmation prompt = false)
    (hmiss : cacheGet s.cache (cacheKeyOf prompt) = none)
    (hnm : containsSubstr ("Error: " ++ e) "EXECUTE_LAST_COMMAND" = false) :
    (handle_user_prompt s prompt (.error e) exec now1).state.current_session.messages
      = s.current_session.messages ++
        [mkMessage prompt true now1, mkMessage ("Error: " ++ e) false now1] ∧
    cacheGet (handle_user_prompt s prompt (.error e) exec now1).state.cache
      (cacheKeyOf prompt) = some ("Error: " ++ e) ∧
    (handle_user_prompt (handle_user_prompt s prompt (.error e) exec now1).state
        prompt gw2 exec now2).gatewayCalled = false ∧
    (handle_user_prompt (handle_user_prompt s prompt (.error e) exec now1).state
        prompt gw2 exec now2).state.current_session.messages
      = (handle_user_prompt s prompt (.error e) exec now1).state.current_session.messages
        ++ [mkMessage prompt true now2, mkMessage ("Error: " ++ e) false now2] := by
  have hni : intercepted s prompt = false := by simp [intercepted, hna]
  have hob1 : obtainReply s.cache prompt (.error e) =
      ("Error: " ++ e, cacheInsert s.cache (cacheKeyOf prompt) ("Error: " ++ e),
       true) := by
    simp [obtainReply, hmiss]
  have hmsg1 : (handle_user_prompt s prompt (.error e) exec now1).state.current_session.messages
      = s.current_session.messages ++
        [mkMessage prompt true now1, mkMessage ("Error: " ++ e) false now1] := by
    rw [handle_not_intercepted _ _ _ _ _ hni]
    simp [respondPhase, hob1, hnm, sessAfterUser_messages]
  have hcache1 : (handle_user_prompt s prompt (.error e) exec now1).state.cache
      = cacheInsert s.cache (cacheKeyOf prompt) ("Error: " ++ e) := by
    rw [handle_cache_eq]
    simp [hni, hob1]
  have hget1 : cacheGet (handle_user_prompt s prompt (.error e) exec now1).state.cache
      (cacheKeyOf prompt) = some ("Error: " ++ e) := by
    rw [hcache1]
    simp [cacheGet_insert]
  have hni2 : intercepted (handle_user_prompt s prompt (.error e) exec now1).state
      prompt = false := by
    simp [intercepted, hna]
  have hob2 : obtainReply (handle_user_prompt s prompt (.error e) exec now1).state.cache
      prompt gw2 =
      ("Error: " ++ e,
       (handle_user_prompt s prompt (.error e) exec now1).state.cache, false) :=
    obtainReply_hit _ _ _ _ hget1
  have hcall2 : (handle_user_prompt
      (handle_user_prompt s prompt (.error e) exec now1).state
      prompt gw2 exec now2).gatewayCalled = false := by
    rw [handle_gatewayCalled_eq]
    simp [hob2]
  have hmsg2 : (handle_user_prompt
      (handle_user_prompt s prompt (.error e) exec now1).state
      prompt gw2 exec now2).state.current_session.messages
      = (handle_user_prompt s prompt (.error e) exec now1).state.current_session.messages
        ++ [mkMessage prompt true now2, mkMessage ("Error: " ++ e) false now2] := by
    rw [handle_not_intercepted _ _ _ _ _ hni2]
    simp [respondPhase, hob2, hnm, sessAfterUser_messages]
  exact ⟨hmsg1, hget1, hcall2, hmsg2⟩

/-- Witness for C3, the spec's scenario: error `"timeout"` on prompt
`"hi"`; the second identical prompt makes no Gateway call. -/
theorem gateway_error_cached_and_replayed_witness :
    isAffirmation "hi" = false ∧
    cacheGet exIdleState.cache (cacheKeyOf "hi") = none ∧
    containsSubstr ("Error: " ++ "timeout") "EXECUTE_LAST_COMMAND" = false ∧
    cacheGet (handle_user_prompt exIdleState "hi" (.error "timeout") exExec 1).state.cache
      (cacheKeyOf "hi") = some ("Error: " ++ "timeout") ∧
    (handle_user_prompt
      (handle_user_prompt exIdleState "hi" (.error "timeout") exExec 1).state
      "hi" (.ok (some "a fresh network reply")) exExec 2).gatewayCalled = false := by
  have h := gateway_error_cached_and_replayed exIdleState "hi" "timeout" exExec
    1 2 (.ok (some "a fresh network reply")) (by decide) rfl (by decide)
  exact ⟨by decide, rfl, by decide, h.2.1, h.2.2.1⟩

/-- C7 counterexample: in a fresh session whose first user message is
`"New Chat"`, the title derived on the first turn is `"New Chat"` itself,
and the second turn recomputes the title to `"hello"` — so the title is not
set exactly once and is recomputed by a later turn. Moreover the derivation
trims only trailing whitespace: `"  hi  "` yields the title `"  hi"`, not
the fully trimmed `"hi"`. -/
theorem session_title_recompute_counterexample :
    ((runTurns freshApp (fun _ => "")
        [⟨"New Chat", .ok (some "ok"), 1⟩]).1.current_session.title
      = "New Chat") ∧
    ((runTurns freshApp (fun _ => "")
        [⟨"New Chat", .ok (some "ok"), 1⟩,
         ⟨"hello", .ok (some "hi there"), 2⟩]).1.current_session.title
      = "hello") ∧
    deriveTitle "  hi  " = "  hi" ∧
    trimStr "  hi  " = "hi" := by
  exact ⟨by decide, by decide, by decide, by decide⟩

/-- C7 amended: each turn sets the title to the first 30 characters of the
prompt with trailing whitespace trimmed (hence at most 30 characters) when
and only when the session's title still equals the sentinel `"New Chat"`;
since fresh sessions carry that sentinel, the title is set on the first user
message and is never recomputed unless the derived title itself equals
`"New Chat"`. -/
theorem session_title_update_rule (s : AppState) (prompt : String)
    (gw : Except String (Option String)) (exec : String → String)
    (now : Nat) :
    (handle_user_prompt s prompt gw exec now).state.current_session.title =
      (if s.current_session.title == "New Chat" then deriveTitle prompt
       else s.current_session.title) ∧
    (deriveTitle prompt).length ≤ 30 := by
  constructor
  · rw [handle_title, sessAfterUser_title]
  · show (trimEndList (prompt.data.take 30)).length ≤ 30
    have h1 : (trimEndList (prompt.data.take 30)).length ≤
        (prompt.data.take 30).length := by
      simp only [trimEndList, List.length_reverse]
      have := (List.dropWhile_sublist (l := (prompt.data.take 30).reverse)
        (p := Char.isWhitespace)).length_le
      simpa using this
    exact h1.trans (by simp [List.length_take])

/-- C8 helper: `extractFirst` returns a permutation split of the list. -/
theorem extractFirst_perm {α : Type} (p : α → Bool) :
    ∀ (l : List α) (a : α) (rest : List α),
      extractFirst p l = some (a, rest) → l.Perm (a :: rest) := by
  intro l
  induction l with
  | nil => intro a rest h; simp [extractFirst] at h
  | cons x xs ih =>
    intro a rest h
    by_cases hx : p x = true
    · simp only [extractFirst, if_pos hx, Option.some.injEq,
        Prod.mk.injEq] at h
      obtain ⟨h1, h2⟩ := h
      subst h1; subst h2
      exact List.Perm.refl _
    · have hx' : p x = false := by
        cases hpx : p x
        · rfl
        · exact absurd hpx hx
      simp only [extractFirst, hx', Bool.false_eq_true, if_false,
        Option.map_eq_some'] at h
      obtain ⟨⟨a', rest'⟩, hsome, heq⟩ := h
      simp only [Prod.mk.injEq] at heq
      obtain ⟨h1, h2⟩ := heq
      subst h2
      rw [← h1]
      have hxs := ih a' rest' hsome
      exact (hxs.cons x).trans (List.Perm.swap a' x rest')

/-- C8 helper: when the id occurs in the list, `extractFirst` finds it. -/
theorem extractFirst_found (l : List ChatSession) (sid : String)
    (h : sid ∈ l.map ChatSession.id) :
    ∃ found rest,
      extractFirst (fun t => t.id == sid) l = some (found, rest) := by
  induction l with
  | nil => simp at h
  | cons x xs ih =>
    by_cases hx : x.id = sid
    · have hb : (x.id == sid) = true := by simp [hx]
      exact ⟨x, xs, by simp [extractFirst, hb]⟩
    · have hb : (x.id == sid) = false := by simp [hx]
      have h' : sid ∈ xs.map ChatSession.id := by
        simp only [List.map_cons, List.mem_cons] at h
        rcases h with h0 | h0
        · exact absurd h0.symm hx
        · exact h0
      obtain ⟨f, r, hf⟩ := ih h'
      refine ⟨f, x :: r, ?_⟩
      simp [extractFirst, hb, hf]

/-- C8: when a session id occurs in the stored list and occurs exactly once
among all sessions the app holds (active plus stored), then after loading
that session by id it still occurs exactly once — the swap neither
duplicates nor drops a session id. -/
theorem load_session_preserves_unique_id (s : AppState) (sid : String)
    (hin : sid ∈ s.chat_sessions.map ChatSession.id)
    (hcount : ((listSessions s).map ChatSession.id).count sid = 1) :
    ((listSessions (load_session s sid)).map ChatSession.id).count sid = 1 := by
  obtain ⟨found, rest, hf⟩ := extractFirst_found s.chat_sessions sid hin
  have hperm : s.chat_sessions.Perm (found :: rest) :=
    extractFirst_perm _ _ _ _ hf
  have hperm2 : (listSessions (load_session s sid)).Perm (listSessions s) := by
    simp only [load_session, hf, listSessions]
    have p1 : (rest ++ [s.current_session]).Perm (s.current_session :: rest) :=
      List.perm_append_singleton _ _
    have p2 := p1.cons found
    have p3 := List.Perm.swap s.current_session found rest
    have p4 := (hperm.symm).cons s.current_session
    exact p2.trans (p3.trans p4)
  rw [← hcount]
  exact (hperm2.map ChatSession.id).count_eq sid

/-- Witness for C8: loading `"sid-b"` out of a two-session list keeps its id
count at one. -/
theorem load_session_preserves_unique_id_witness :
    ("sid-b" ∈ ([⟨"sid-b", "B", [], 0⟩, ⟨"sid-c", "C", [], 0⟩] :
        List ChatSession).map ChatSession.id) ∧
    ((listSessions { current_session := exSession
                     chat_sessions := [⟨"sid-b", "B", [], 0⟩, ⟨"sid-c", "C", [], 0⟩]
                     selected_session_id := none
                     cache := []
                     pending_command := none }).map ChatSession.id).count "sid-b" = 1 ∧
    ((listSessions (load_session
        { current_session := exSession
          chat_sessions := [⟨"sid-b", "B", [], 0⟩, ⟨"sid-c", "C", [], 0⟩]
          selected_session_id := none
          cache := []
          pending_command := none } "sid-b")).map ChatSession.id).count "sid-b"
      = 1 := by
  refine ⟨by decide, by decide, ?_⟩
  exact load_session_preserves_unique_id _ "sid-b" (by decide) (by decide)
